import Mathlib

/-!
Verification of the metadata utilities:
* `examples/json_summary.py` — load ExifTool JSON output, flatten it to a
  table, summarize columns, and diff two summaries;
* `tools/metadata_dump.py` — build the ExifTool command line and run it,
  writing the output CSV.

The Python code is shallowly embedded: JSON values become an inductive type,
`pandas` tables become lists of flat records together with a sorted column
list, and the filesystem effects of the dump runner become an explicit world
state.  Machine-level details that no claim touches (Unicode-aware
`str.strip`/`str.lower` beyond ASCII, pandas dtype coercions) are modelled at
the ASCII/value level.
-/

/-- A JSON value, as produced by `json.load`.  Numbers are modelled as
integers (`int` in Python); nothing in the claims depends on floats. -/
inductive Json where
  | null : Json
  | bool (b : Bool) : Json
  | num (n : Int) : Json
  | str (s : String) : Json
  | arr (elems : List Json) : Json
  | obj (fields : List (String × Json)) : Json

mutual

/-- Structural equality of JSON values (Python `==` on parsed JSON). -/
def Json.beq : Json → Json → Bool
  | .null, .null => true
  | .bool a, .bool b => a == b
  | .num a, .num b => a == b
  | .str a, .str b => a == b
  | .arr a, .arr b => Json.beqL a b
  | .obj a, .obj b => Json.beqF a b
  | _, _ => false

/-- Structural equality of JSON arrays. -/
def Json.beqL : List Json → List Json → Bool
  | [], [] => true
  | x :: xs, y :: ys => Json.beq x y && Json.beqL xs ys
  | _, _ => false

/-- Structural equality of JSON object fields. -/
def Json.beqF : List (String × Json) → List (String × Json) → Bool
  | [], [] => true
  | (k, v) :: xs, (k2, v2) :: ys => k == k2 && Json.beq v v2 && Json.beqF xs ys
  | _, _ => false

end

/-- Whether a JSON value is `null` (pandas stores it as a missing value, so
`notna()`/`nunique(dropna=True)` both exclude it). -/
def Json.isNull : Json → Bool
  | .null => true
  | _ => false

/-- Distinct JSON values of a list (the value set `nunique` counts), keeping
the last occurrence of each value. -/
def dedupJson : List Json → List Json
  | [] => []
  | x :: xs => if xs.any (Json.beq x) then dedupJson xs else x :: dedupJson xs

/-- Python's `type(x).__name__` for a parsed JSON value. -/
def pyTypeName : Json → String
  | .null => "NoneType"
  | .bool _ => "bool"
  | .num _ => "int"
  | .str _ => "str"
  | .arr _ => "list"
  | .obj _ => "dict"

/-- A parsed JSON object: the payload of `Json.obj`. -/
abbrev Record := List (String × Json)

/-- Key joining of `pandas.json_normalize(..., sep=".")`: the top level uses
the bare key, nested levels join with a dot. -/
def joinKey (pre k : String) : String :=
  if pre = "" then k else pre ++ "." ++ k

mutual

/-- Flattening of one value under key `key`, following
`pandas.json_normalize` (`nested_to_record`): a nested object is recursively
flattened (an empty object contributes nothing), every other value — scalars
and also arrays, which `json_normalize` does not descend into — becomes a
single cell under `key`. -/
def flattenValue (key : String) : Json → List (String × Json)
  | .obj fields => flattenFields key fields
  | v => [(key, v)]

/-- Flattening of an object's fields under the key path `pre`. -/
def flattenFields (pre : String) : List (String × Json) → List (String × Json)
  | [] => []
  | (k, v) :: rest => flattenValue (joinKey pre k) v ++ flattenFields pre rest

end

/-- Flattening of one record, with an empty key path at the top level. -/
def flattenRecord (r : Record) : List (String × Json) :=
  flattenFields "" r

/-- A flattened table: the sorted column list plus one flat record per row.
A `pandas` DataFrame cell is recovered with `getCell`; a column missing from
a row's record is the DataFrame's NaN. -/
structure Frame where
  columns : List String
  rows : List (List (String × Json))

/-- Python's case-sensitive string `<=`: code-point lexicographic order,
modelled on the character list.  (Lean's own `String.le` is decided through
`String.ltb`, whose iterator recursion the kernel cannot evaluate, so the
list order is used throughout.) -/
def strLe (a b : String) : Prop := a.data ≤ b.data

/-- Python's case-sensitive string `<`. -/
def strLt (a b : String) : Prop := a.data < b.data

instance : DecidableRel strLe :=
  fun a b => inferInstanceAs (Decidable (a.data ≤ b.data))

instance : IsTotal String strLe := ⟨fun a b => le_total a.data b.data⟩

instance : IsTrans String strLe := ⟨fun _ _ _ h h' => le_trans h h'⟩

/-- Cell access: the value the row's record assigns to column `c` (the last
binding wins, as in a Python dict), or `none` (NaN) when absent. -/
def getCell (row : List (String × Json)) (c : String) : Option Json :=
  row.foldl (fun acc kv => if kv.1 = c then some kv.2 else acc) none

/-- `pd.json_normalize(records, sep=".")` followed by
`frame.reindex(sorted(frame.columns), axis=1)`: the rows are the flattened
records and the columns are the distinct flat keys in ascending lexical
order.  (`json_normalize` collects columns in first-seen order and the
`sorted` reindex then orders them; since the result is sorted, the
first-seen/`List.dedup` distinction is immaterial.) -/
def mkFrame (records : List Record) : Frame :=
  let rows := records.map flattenRecord
  { columns := List.insertionSort strLe
      ((rows.flatMap (fun row => row.map Prod.fst)).dedup)
  , rows := rows }

/-- `_load_json_documents`: a top-level list is returned as is, a top-level
dict is wrapped in a one-element list, and anything else raises `ValueError`
naming the actual type. -/
def load_json_documents (json_path : String) (payload : Json) :
    Except String (List Json) :=
  match payload with
  | .arr elems => .ok elems
  | .obj fields => .ok [.obj fields]
  | v => .error ("Expected a dictionary or list of dictionaries in "
      ++ json_path ++ ", got " ++ pyTypeName v ++ " instead.")

/-- `pandas.json_normalize` requires every record to be a dict; a non-dict
record raises (`AttributeError` on `.items`). -/
def asRecord : Json → Except String Record
  | .obj fields => .ok fields
  | v => .error ("json_normalize: record is not a dict, got "
      ++ pyTypeName v ++ " instead.")

/-- Sequential conversion of the loaded documents to records, failing on the
first non-dict document as `json_normalize` does. -/
def recordsOf : List Json → Except String (List Record)
  | [] => .ok []
  | d :: rest => do
      let r ← asRecord d
      let rs ← recordsOf rest
      .ok (r :: rs)

/-- `load_metadata_frame`: load the documents, flatten them with
`json_normalize`, and sort the columns. -/
def load_metadata_frame (json_path : String) (payload : Json) :
    Except String Frame := do
  let docs ← load_json_documents json_path payload
  let records ← recordsOf docs
  .ok (mkFrame records)

/-- One row of a column summary (`Tag`, `NonNullCount`, `UniqueValues`).
The two statistics are `Option Int` because the diff below works on rows
where a side can be absent (NaN). -/
structure SRow where
  tag : String
  nonNull : Option Int
  uniq : Option Int
deriving Repr, DecidableEq

/-- Ordering of summary rows by `Tag` (`sort_values("Tag")`). -/
def tagLe (a b : SRow) : Prop := strLe a.tag b.tag

instance : DecidableRel tagLe :=
  fun a b => inferInstanceAs (Decidable (a.tag.data ≤ b.tag.data))

instance : IsTotal SRow tagLe := ⟨fun a b => le_total a.tag.data b.tag.data⟩

instance : IsTrans SRow tagLe :=
  ⟨fun _ _ _ h h' => le_trans (α := List Char) h h'⟩

/-- `summarize_columns`: for each column, `NonNullCount` counts the cells
that are present and not `null` (`pandas` treats a JSON `null` cell as NaN,
so `notna()` excludes it) and `UniqueValues` counts the distinct such values
(`nunique(dropna=True)`); the rows are then sorted by `Tag`
(`sort_values("Tag").reset_index(drop=True)` — in the list model the index
reset is the identity). -/
def summarize_columns (frame : Frame) : List SRow :=
  List.insertionSort tagLe (frame.columns.map fun c =>
    let vals := (frame.rows.filterMap (fun row => getCell row c)).filter
      (fun v => ! v.isNull)
    { tag := c
    , nonNull := some (vals.length : Int)
    , uniq := some ((dedupJson vals).length : Int) })

/-- One row of the outer merge of two summaries
(`existing.merge(new, on="Tag", how="outer", suffixes=("_old", "_new"))`). -/
structure MRow where
  tag : String
  nonNullOld : Option Int
  uniqOld : Option Int
  nonNullNew : Option Int
  uniqNew : Option Int
deriving Repr, DecidableEq

/-- Ordering of merged rows by `Tag`. -/
def mtagLe (a b : MRow) : Prop := strLe a.tag b.tag

instance : DecidableRel mtagLe :=
  fun a b => inferInstanceAs (Decidable (a.tag.data ≤ b.tag.data))

instance : IsTotal MRow mtagLe := ⟨fun a b => le_total a.tag.data b.tag.data⟩

instance : IsTrans MRow mtagLe :=
  ⟨fun _ _ _ h h' => le_trans (α := List Char) h h'⟩

/-- The pandas outer merge on `Tag`: every `existing` row paired with each
`new` row of the same tag (or with NaN statistics when `new` lacks the tag),
followed by the `new` rows whose tag `existing` lacks.  The claims that use
this all assume tags distinct on each side, where the merged row order is
immaterial because the result is re-sorted by `Tag`. -/
def mergeRows (existing news : List SRow) : List MRow :=
  (existing.flatMap fun e =>
    if (news.filter fun n => decide (n.tag = e.tag)) = []
    then [⟨e.tag, e.nonNull, e.uniq, none, none⟩]
    else (news.filter fun n => decide (n.tag = e.tag)).map
      fun n => ⟨e.tag, e.nonNull, e.uniq, n.nonNull, n.uniq⟩)
  ++ ((news.filter fun n => decide (n.tag ∉ existing.map SRow.tag)).map
      fun n => ⟨n.tag, none, none, n.nonNull, n.uniq⟩)

/-- The pandas `!=` on two possibly-NaN values: NaN compares unequal to
everything, NaN included. -/
def neqOpt : Option Int → Option Int → Bool
  | some x, some y => decide (x ≠ y)
  | _, _ => true

/-- `compare_summaries`: outer-merge `existing` with `new` on `Tag`, keep the
rows whose old/new `NonNullCount` or `UniqueValues` compare unequal (pandas
`!=`, where NaN is unequal to everything), and sort by `Tag`
(`reset_index(drop=True)` is the identity in the list model). -/
def compare_summaries (news existing : List SRow) : List MRow :=
  List.insertionSort mtagLe
    ((mergeRows existing news).filter fun m =>
      neqOpt m.nonNullOld m.nonNullNew || neqOpt m.uniqOld m.uniqNew)

/-! ### `tools/metadata_dump.py` -/

/-- Python `str.strip()` (ASCII whitespace). -/
def pyStrip (s : String) : String :=
  ⟨((s.data.dropWhile Char.isWhitespace).reverse.dropWhile
      Char.isWhitespace).reverse⟩

/-- Python `str.lower()` (ASCII case mapping). -/
def pyLower (s : String) : String :=
  ⟨s.data.map Char.toLower⟩

/-- `if ext.startswith("."): ext = ext[1:]` — drop one leading dot. -/
def stripLeadingDot (s : String) : String :=
  match s.data with
  | c :: rest => if c = '.' then ⟨rest⟩ else s
  | [] => s

/-- One iteration of the `normalize_extensions` loop: strip, lowercase, drop
one leading dot, and discard the result when empty. -/
def normalizeOne (ext : String) : Option String :=
  let s := stripLeadingDot (pyLower (pyStrip ext))
  if s = "" then none else some s

/-- `normalize_extensions`: normalize each extension in order (duplicates
preserved) and raise `ValueError` when nothing survives. -/
def normalize_extensions (extensions : List String) :
    Except String (List String) :=
  let normalized := extensions.filterMap normalizeOne
  if normalized = [] then
    .error "At least one file extension must be provided."
  else .ok normalized

/-- `build_exiftool_command`: the ExifTool argument list, in order. -/
def build_exiftool_command (root_dir : String) (extensions : List String)
    (request_all : Int) (largefile_support recursive : Bool)
    (exiftool_cmd : String) : Except String (List String) :=
  match normalize_extensions extensions with
  | .error e => .error e
  | .ok normalized_exts =>
      .ok ([exiftool_cmd, "-api", "RequestAll=" ++ toString request_all]
        ++ (if largefile_support then ["-api", "largefilesupport=1"] else [])
        ++ ["-G1", "-csv"]
        ++ (if recursive then ["-r"] else [])
        ++ normalized_exts.flatMap (fun e => ["-ext", e])
        ++ [root_dir])

/-- The filesystem/process state observed and mutated by
`run_exiftool_metadata_dump`: whether the root is a directory
(`root_dir.is_dir()`), whether `shutil.which` resolves the executable,
whether the resolved output file exists and its contents, whether the
output's parent directories have been created, and whether the child process
has been spawned. -/
structure World where
  rootIsDir : Bool
  exeResolvable : Bool
  destExists : Bool
  destContent : String
  parentsCreated : Bool
  processRan : Bool
deriving Repr, DecidableEq

/-- The error kinds `run_exiftool_metadata_dump` can raise. -/
inductive RunError where
  | rootNotFound
  | toolMissing
  | outputExists
  | configError (msg : String)
  | processFailed
deriving Repr, DecidableEq

/-- `run_exiftool_metadata_dump`, as a transition on `World`, in source
order: check the root directory; create the output's parent directories;
check `shutil.which`; check the output file (delete it when forcing); build
the command (its `ValueError` propagates here); open the output for writing
and run the child process, whose standard output `procOut` lands in the file
whether or not its exit status `procOk` is success. -/
def run_exiftool_metadata_dump (w : World) (root_dir : String)
    (extensions : List String) (request_all : Int)
    (largefile_support recursive : Bool) (exiftool_cmd : String)
    (force : Bool) (procOut : String) (procOk : Bool) :
    World × Except RunError Unit :=
  if w.rootIsDir = false then (w, .error .rootNotFound) else
  let w1 := { w with parentsCreated := true }
  if w1.exeResolvable = false then (w1, .error .toolMissing) else
  if w1.destExists && !force then (w1, .error .outputExists) else
  let w2 := if w1.destExists then
    { w1 with destExists := false, destContent := "" } else w1
  match build_exiftool_command root_dir extensions request_all
      largefile_support recursive exiftool_cmd with
  | .error m => (w2, .error (.configError m))
  | .ok _ =>
      let w3 := { w2 with destExists := true, destContent := procOut,
                          processRan := true }
      if procOk then (w3, .ok ()) else (w3, .error .processFailed)

/-- Modelled from the spec (Differ): the outer-join row keyed on tag `t` —
each side's two statistics come from that side's row carrying tag `t`, and
are null when the side lacks the tag.  Used to state the claim's
characterization of `compare_summaries` against the implementation. -/
def specJoinRow (existing news : List SRow) (t : String) : MRow :=
  { tag := t
  , nonNullOld := (existing.find? fun r => decide (r.tag = t)).bind SRow.nonNull
  , uniqOld := (existing.find? fun r => decide (r.tag = t)).bind SRow.uniq
  , nonNullNew := (news.find? fun r => decide (r.tag = t)).bind SRow.nonNull
  , uniqNew := (news.find? fun r => decide (r.tag = t)).bind SRow.uniq }

/-! ### Helper lemmas -/

theorem dedupJson_sublist : ∀ l : List Json, List.Sublist (dedupJson l) l
  | [] => List.Sublist.refl _
  | x :: xs => by
      rw [dedupJson]
      split
      · exact (dedupJson_sublist xs).cons x
      · exact (dedupJson_sublist xs).cons₂ x

theorem getCell_foldl_of_not_mem {c : String} :
    ∀ (row : List (String × Json)) (acc : Option Json),
      c ∉ row.map Prod.fst →
      row.foldl (fun acc kv => if kv.1 = c then some kv.2 else acc) acc = acc
  | [], _, _ => rfl
  | (k, v) :: rest, acc, h => by
      have hk : ¬ k = c := fun hkc => h (by simp [hkc])
      have hrest : c ∉ rest.map Prod.fst := fun hc => h (by simp [hc])
      rw [List.foldl_cons]
      simp only [hk, if_false]
      exact getCell_foldl_of_not_mem rest acc hrest

theorem getCell_of_not_mem {row : List (String × Json)} {c : String}
    (h : c ∉ row.map Prod.fst) : getCell row c = none :=
  getCell_foldl_of_not_mem row none h

/-! ### Claim theorems -/

/-- C1: every row of the summary produced by `summarize_columns` carries two
present integer statistics with `0 ≤ UniqueValues ≤ NonNullCount` (the
distinct non-null values of a column are a sublist of its non-null
values). -/
theorem summarize_columns_stats_bounds (frame : Frame) (r : SRow)
    (hr : r ∈ summarize_columns frame) :
    ∃ n u : Int, r.nonNull = some n ∧ r.uniq = some u ∧
      0 ≤ n ∧ 0 ≤ u ∧ u ≤ n := by
  rw [summarize_columns, List.mem_insertionSort] at hr
  obtain ⟨c, _, rfl⟩ := List.mem_map.mp hr
  refine ⟨_, _, rfl, rfl, ?_, ?_, ?_⟩
  · exact_mod_cast Nat.zero_le _
  · exact_mod_cast Nat.zero_le _
  · exact_mod_cast (dedupJson_sublist _).length_le

theorem summarize_columns_stats_bounds_witness :
    ∃ n u : Int, (SRow.mk "a" (some 1) (some 1)).nonNull = some n ∧
      (SRow.mk "a" (some 1) (some 1)).uniq = some u ∧ 0 ≤ n ∧ 0 ≤ u ∧ u ≤ n :=
  summarize_columns_stats_bounds
    { columns := ["a"], rows := [[("a", Json.num 1)]] }
    ⟨"a", some 1, some 1⟩ (by decide)

/-- C3: with a non-empty normalized extension list, `build_exiftool_command`
returns exactly the ordered argument list — executable, completeness level,
large-file option iff requested, grouped-tag and CSV options, recursion
option iff requested, one `-ext` pair per normalized extension in order with
duplicates preserved, and the root path last. -/
theorem build_exiftool_command_args (root_dir : String)
    (extensions : List String) (request_all : Int)
    (largefile_support recursive : Bool) (exiftool_cmd : String)
    (nexts : List String)
    (h : normalize_extensions extensions = Except.ok nexts) :
    build_exiftool_command root_dir extensions request_all
        largefile_support recursive exiftool_cmd =
      Except.ok ([exiftool_cmd, "-api", "RequestAll=" ++ toString request_all]
        ++ (if largefile_support then ["-api", "largefilesupport=1"] else [])
        ++ ["-G1", "-csv"]
        ++ (if recursive then ["-r"] else [])
        ++ nexts.flatMap (fun e => ["-ext", e])
        ++ [root_dir])
    ∧ ∀ args, build_exiftool_command root_dir extensions request_all
        largefile_support recursive exiftool_cmd = Except.ok args →
        args.getLast? = some root_dir := by
  constructor
  · rw [build_exiftool_command, h]
  · intro args hargs
    rw [build_exiftool_command, h] at hargs
    cases hargs
    exact List.getLast?_concat _

theorem build_exiftool_command_args_witness :
    build_exiftool_command "/evidence" ["JPG", ".jpg"] 3 true true "exiftool" =
      Except.ok (["exiftool", "-api", "RequestAll=" ++ toString (3 : Int)]
        ++ (if true then ["-api", "largefilesupport=1"] else [])
        ++ ["-G1", "-csv"]
        ++ (if true then ["-r"] else [])
        ++ ["jpg", "jpg"].flatMap (fun e => ["-ext", e])
        ++ ["/evidence"])
    ∧ (["exiftool", "-api", "RequestAll=3", "-api", "largefilesupport=1",
        "-G1", "-csv", "-r", "-ext", "jpg", "-ext", "jpg",
        "/evidence"] : List String).getLast? = some "/evidence" :=
  ⟨(build_exiftool_command_args "/evidence" ["JPG", ".jpg"] 3 true true
      "exiftool" ["jpg", "jpg"] (by rfl)).1,
   (build_exiftool_command_args "/evidence" ["JPG", ".jpg"] 3 true true
      "exiftool" ["jpg", "jpg"] (by rfl)).2
     ["exiftool", "-api", "RequestAll=3", "-api", "largefilesupport=1",
      "-G1", "-csv", "-r", "-ext", "jpg", "-ext", "jpg", "/evidence"]
     (by rfl)⟩

/-- C5: a file whose top level is a single object produces exactly the same
flattened table as a file whose top level is the one-element array holding
that object. -/
theorem load_metadata_frame_obj_wrap (json_path : String) (fields : Record) :
    load_metadata_frame json_path (Json.obj fields) =
    load_metadata_frame json_path (Json.arr [Json.obj fields]) := rfl

/-- C7: the document loader returns a top-level array unchanged, wraps a
top-level object into a one-element list, and fails on any other top-level
value with a `ValueError` naming the actual JSON type. -/
theorem load_json_documents_toplevel :
    (∀ (p : String) (elems : List Json),
      load_json_documents p (Json.arr elems) = Except.ok elems)
    ∧ (∀ (p : String) (fields : Record),
      load_json_documents p (Json.obj fields) = Except.ok [Json.obj fields])
    ∧ (∀ (p : String) (v : Json),
      (∀ elems, v ≠ Json.arr elems) → (∀ fields, v ≠ Json.obj fields) →
      load_json_documents p v =
        Except.error ("Expected a dictionary or list of dictionaries in "
          ++ p ++ ", got " ++ pyTypeName v ++ " instead.")) := by
  refine ⟨fun p es => rfl, fun p fs => rfl, fun p v h1 h2 => ?_⟩
  cases v with
  | arr elems => exact absurd rfl (h1 elems)
  | obj fields => exact absurd rfl (h2 fields)
  | _ => rfl

theorem load_json_documents_toplevel_witness :
    load_json_documents "meta.json" (Json.num 5) =
      Except.error ("Expected a dictionary or list of dictionaries in "
        ++ "meta.json" ++ ", got " ++ pyTypeName (Json.num 5) ++ " instead.") :=
  load_json_documents_toplevel.2.2 "meta.json" (Json.num 5)
    (fun _ h => Json.noConfusion h) (fun _ h => Json.noConfusion h)

theorem string_eq_iff_data {s t : String} : s = t ↔ s.data = t.data :=
  ⟨congrArg String.data, fun h => by cases s; cases t; cases h; rfl⟩

theorem data_empty_string : ("" : String).data = [] := rfl

theorem data_dot_string : ("." : String).data = ['.'] := rfl

theorem stripLeadingDot_eq_empty (t : String) :
    stripLeadingDot t = "" ↔ t = "" ∨ t = "." := by
  obtain ⟨l⟩ := t
  cases l with
  | nil => simp [stripLeadingDot]
  | cons c cs =>
      rw [show stripLeadingDot ⟨c :: cs⟩ =
        (if c = '.' then ⟨cs⟩ else ⟨c :: cs⟩) from rfl]
      by_cases hc : c = '.'
      · subst hc
        rw [if_pos rfl]
        cases cs with
        | nil => simp [string_eq_iff_data, data_empty_string, data_dot_string]
        | cons d ds =>
            simp [string_eq_iff_data, data_empty_string, data_dot_string]
      · rw [if_neg hc]
        simp [string_eq_iff_data, data_empty_string, data_dot_string, hc]

theorem normalizeOne_eq_none (e : String) :
    normalizeOne e = none ↔
      (pyLower (pyStrip e) = "" ∨ pyLower (pyStrip e) = ".") := by
  rw [← stripLeadingDot_eq_empty, normalizeOne]
  by_cases h : stripLeadingDot (pyLower (pyStrip e)) = "" <;> simp [h]

/-- C8 counterexample: the extension `".."` consists only of dot characters,
yet `normalize_extensions` does not fail — only one leading dot is stripped,
leaving the non-empty extension `"."`. -/
theorem normalize_extensions_all_dots_ok :
    (∀ c ∈ ("..".data), c = '.')
    ∧ normalize_extensions [".."] = Except.ok ["."] :=
  ⟨by decide, rfl⟩

/-- C8 (amended): `normalize_extensions` fails exactly when every extension
is degenerate — after stripping whitespace and lowercasing it is empty or a
single dot (the code removes at most one leading dot, so a lone dot
normalizes away but further dots survive); a successful run returns the
in-order normalization of the input with nothing surviving removed. -/
theorem normalize_extensions_empty_iff (exts : List String) :
    ((∀ e ∈ exts, pyLower (pyStrip e) = "" ∨ pyLower (pyStrip e) = ".") ↔
      normalize_extensions exts =
        Except.error "At least one file extension must be provided.")
    ∧ (∀ l, normalize_extensions exts = Except.ok l →
        l = exts.filterMap normalizeOne ∧ l ≠ []) := by
  have hiff : (∀ e ∈ exts, pyLower (pyStrip e) = "" ∨ pyLower (pyStrip e) = ".")
      ↔ exts.filterMap normalizeOne = [] := by
    rw [List.filterMap_eq_nil_iff]
    exact forall₂_congr fun e _ => (normalizeOne_eq_none e).symm
  constructor
  · rw [hiff, normalize_extensions]
    constructor
    · intro h; rw [if_pos h]
    · intro h
      by_cases hnil : exts.filterMap normalizeOne = []
      · exact hnil
      · rw [if_neg hnil] at h; exact absurd h (by simp)
  · intro l hok
    rw [normalize_extensions] at hok
    by_cases hnil : exts.filterMap normalizeOne = []
    · rw [if_pos hnil] at hok; exact absurd hok (by simp)
    · rw [if_neg hnil] at hok
      cases hok
      exact ⟨rfl, hnil⟩

theorem normalize_extensions_empty_iff_witness :
    normalize_extensions ["  ", "."] =
      Except.error "At least one file extension must be provided."
    ∧ ((["jpg"] : List String) =
        (["  ", " .JPG"] : List String).filterMap normalizeOne
      ∧ (["jpg"] : List String) ≠ []) :=
  ⟨(normalize_extensions_empty_iff ["  ", "."]).1.mp (by decide),
   (normalize_extensions_empty_iff ["  ", " .JPG"]).2 ["jpg"] (by rfl)⟩

/-- C9: when the root directory exists, the executable resolves, the output
file already exists, and `force` is off, the run fails with the
already-exists conflict and the existing output is untouched — same
contents, still present, and no child process was spawned. -/
theorem run_dump_conflict_preserves_output (w : World) (root_dir : String)
    (exts : List String) (ra : Int) (lf rc : Bool) (cmd : String)
    (po : String) (pk : Bool)
    (h1 : w.rootIsDir = true) (h2 : w.exeResolvable = true)
    (h3 : w.destExists = true) :
    run_exiftool_metadata_dump w root_dir exts ra lf rc cmd false po pk =
      ({ w with parentsCreated := true }, Except.error RunError.outputExists)
    ∧ (run_exiftool_metadata_dump w root_dir exts ra lf rc cmd
        false po pk).1.destContent = w.destContent
    ∧ (run_exiftool_metadata_dump w root_dir exts ra lf rc cmd
        false po pk).1.destExists = true
    ∧ (run_exiftool_metadata_dump w root_dir exts ra lf rc cmd
        false po pk).1.processRan = w.processRan := by
  have hrun : run_exiftool_metadata_dump w root_dir exts ra lf rc cmd
      false po pk =
      ({ w with parentsCreated := true }, Except.error RunError.outputExists) := by
    rw [run_exiftool_metadata_dump]
    simp [h1, h2, h3]
  exact ⟨hrun, by rw [hrun], by rw [hrun]; exact h3, by rw [hrun]⟩

theorem run_dump_conflict_preserves_output_witness :
    run_exiftool_metadata_dump ⟨true, true, true, "old", false, false⟩
      "/r" ["pdf"] 3 true true "exiftool" false "new" true =
      ({ (⟨true, true, true, "old", false, false⟩ : World) with
          parentsCreated := true }, Except.error RunError.outputExists)
    ∧ (run_exiftool_metadata_dump ⟨true, true, true, "old", false, false⟩
        "/r" ["pdf"] 3 true true "exiftool" false "new" true).1.destContent =
      (⟨true, true, true, "old", false, false⟩ : World).destContent
    ∧ (run_exiftool_metadata_dump ⟨true, true, true, "old", false, false⟩
        "/r" ["pdf"] 3 true true "exiftool" false "new" true).1.destExists = true
    ∧ (run_exiftool_metadata_dump ⟨true, true, true, "old", false, false⟩
        "/r" ["pdf"] 3 true true "exiftool" false "new" true).1.processRan =
      (⟨true, true, true, "old", false, false⟩ : World).processRan :=
  run_dump_conflict_preserves_output ⟨true, true, true, "old", false, false⟩
    "/r" ["pdf"] 3 true true "exiftool" "new" true rfl rfl rfl

/-- C10: the executable check runs before the output-exists check — with an
existing root and an unresolvable executable the run fails with the
tool-missing error whatever the output-file state — and in both of these
failing runs the output's parent directories have already been created. -/
theorem run_dump_check_order (w : World) (root_dir : String)
    (exts : List String) (ra : Int) (lf rc : Bool) (cmd : String)
    (force : Bool) (po : String) (pk : Bool) (h1 : w.rootIsDir = true) :
    (w.exeResolvable = false →
      (run_exiftool_metadata_dump w root_dir exts ra lf rc cmd
          force po pk).2 = Except.error RunError.toolMissing
      ∧ (run_exiftool_metadata_dump w root_dir exts ra lf rc cmd
          force po pk).1.parentsCreated = true)
    ∧ (w.exeResolvable = true → w.destExists = true → force = false →
      (run_exiftool_metadata_dump w root_dir exts ra lf rc cmd
          force po pk).2 = Except.error RunError.outputExists
      ∧ (run_exiftool_metadata_dump w root_dir exts ra lf rc cmd
          force po pk).1.parentsCreated = true) := by
  constructor
  · intro h2
    rw [run_exiftool_metadata_dump]
    simp [h1, h2]
  · intro h2 h3 h4
    subst h4
    rw [run_exiftool_metadata_dump]
    simp [h1, h2, h3]

theorem run_dump_check_order_witness :
    ((run_exiftool_metadata_dump ⟨true, false, true, "old", false, false⟩
        "/r" ["pdf"] 3 true true "exiftool" false "new" true).2 =
      Except.error RunError.toolMissing
    ∧ (run_exiftool_metadata_dump ⟨true, false, true, "old", false, false⟩
        "/r" ["pdf"] 3 true true "exiftool" false "new" true).1.parentsCreated
      = true)
    ∧ ((run_exiftool_metadata_dump ⟨true, true, true, "old", false, false⟩
        "/r" ["pdf"] 3 true true "exiftool" false "new" true).2 =
      Except.error RunError.outputExists
    ∧ (run_exiftool_metadata_dump ⟨true, true, true, "old", false, false⟩
        "/r" ["pdf"] 3 true true "exiftool" false "new" true).1.parentsCreated
      = true) :=
  ⟨(run_dump_check_order ⟨true, false, true, "old", false, false⟩
      "/r" ["pdf"] 3 true true "exiftool" false "new" true rfl).1 rfl,
   (run_dump_check_order ⟨true, true, true, "old", false, false⟩
      "/r" ["pdf"] 3 true true "exiftool" false "new" true rfl).2 rfl rfl rfl⟩

theorem except_bind_ok {α β : Type} (a : α) (f : α → Except String β) :
    (Except.ok a : Except String α) >>= f = f a := rfl

theorem recordsOf_map_obj : ∀ records : List Record,
    recordsOf (records.map Json.obj) = Except.ok records
  | [] => rfl
  | r :: rest => by
      rw [List.map_cons, recordsOf]
      simp only [recordsOf_map_obj rest, asRecord]
      rfl

theorem sorted_strLt_of_sorted_strLe_nodup {l : List String}
    (hs : List.Sorted strLe l) (hn : l.Nodup) : List.Sorted strLt l :=
  (hs.and hn).imp fun hab =>
    lt_of_le_of_ne hab.1 fun hd => hab.2 (string_eq_iff_data.mpr hd)

/-- C2: the flattened table has one row per record, columns in strictly
ascending case-sensitive lexical order forming the union of the flattened
dot-joined key paths of all records, cells of keys missing from a row
unset; loading a list of objects produces exactly this table, and the single
record with one nested object under keys `a`, `b` and value `1` yields one
row with column `a.b` equal to `1`. -/
theorem load_metadata_frame_shape (records : List Record) :
    (mkFrame records).rows.length = records.length
    ∧ List.Sorted strLt (mkFrame records).columns
    ∧ (∀ c, c ∈ (mkFrame records).columns ↔
        ∃ r ∈ records, c ∈ (flattenRecord r).map Prod.fst)
    ∧ (∀ row ∈ (mkFrame records).rows, ∀ c, c ∉ row.map Prod.fst →
        getCell row c = none)
    ∧ (∀ json_path, load_metadata_frame json_path
        (Json.arr (records.map Json.obj)) = Except.ok (mkFrame records))
    ∧ load_metadata_frame "meta.json"
        (Json.obj [("a", Json.obj [("b", Json.num 1)])]) =
      Except.ok { columns := ["a.b"], rows := [[("a.b", Json.num 1)]] } := by
  refine ⟨by simp [mkFrame], ?_, ?_, ?_, ?_, by rfl⟩
  · have hsorted : List.Sorted strLe (mkFrame records).columns :=
      List.sorted_insertionSort strLe _
    have hnodup : (mkFrame records).columns.Nodup :=
      ((List.perm_insertionSort strLe _).nodup_iff).mpr (List.nodup_dedup _)
    exact sorted_strLt_of_sorted_strLe_nodup hsorted hnodup
  · intro c
    show c ∈ List.insertionSort strLe
        (((records.map flattenRecord).flatMap
          (fun row => row.map Prod.fst)).dedup) ↔ _
    rw [List.mem_insertionSort, List.mem_dedup, List.mem_flatMap]
    constructor
    · rintro ⟨row, hrow, hc⟩
      obtain ⟨r, hr, rfl⟩ := List.mem_map.mp hrow
      exact ⟨r, hr, hc⟩
    · rintro ⟨r, hr, hc⟩
      exact ⟨flattenRecord r, List.mem_map.mpr ⟨r, hr, rfl⟩, hc⟩
  · intro row _ c hc
    exact getCell_of_not_mem hc
  · intro json_path
    rw [load_metadata_frame,
      show load_json_documents json_path (Json.arr (records.map Json.obj)) =
        Except.ok (records.map Json.obj) from rfl,
      except_bind_ok, recordsOf_map_obj records, except_bind_ok]

theorem load_metadata_frame_shape_witness :
    getCell [("a.b", Json.num 1)] "zz" = none
    ∧ ("a.b" ∈ (mkFrame [[("a", Json.obj [("b", Json.num 1)])]]).columns ↔
        ∃ r ∈ [[("a", Json.obj [("b", Json.num 1)])]],
          "a.b" ∈ (flattenRecord r).map Prod.fst) :=
  ⟨(load_metadata_frame_shape [[("a", Json.obj [("b", Json.num 1)])]]).2.2.2.1
      [("a.b", Json.num 1)] (List.Mem.head _) "zz" (by decide),
   (load_metadata_frame_shape [[("a", Json.obj [("b", Json.num 1)])]]).2.2.1
      "a.b"⟩

theorem find?_tag_self : ∀ (l : List SRow), (l.map SRow.tag).Nodup →
    ∀ e ∈ l, l.find? (fun r => decide (r.tag = e.tag)) = some e
  | [], _, e, he => absurd he (List.not_mem_nil e)
  | x :: xs, hnd, e, he => by
      rw [List.map_cons, List.nodup_cons] at hnd
      rcases List.mem_cons.mp he with rfl | hexs
      · rw [List.find?_cons_of_pos _ (by simp)]
      · have hx : ¬ x.tag = e.tag := fun hxe =>
          hnd.1 (hxe ▸ List.mem_map.mpr ⟨e, hexs, rfl⟩)
      -- fallthrough
        rw [List.find?_cons_of_neg _ (by simp [hx])]
        exact find?_tag_self xs hnd.2 e hexs

theorem filter_tag_self : ∀ (l : List SRow), (l.map SRow.tag).Nodup →
    ∀ e ∈ l, l.filter (fun r => decide (r.tag = e.tag)) = [e]
  | [], _, e, he => absurd he (List.not_mem_nil e)
  | x :: xs, hnd, e, he => by
      rw [List.map_cons, List.nodup_cons] at hnd
      rcases List.mem_cons.mp he with rfl | hexs
      · rw [List.filter_cons_of_pos (by simp)]
        have : xs.filter (fun r => decide (r.tag = e.tag)) = [] :=
          List.filter_eq_nil_iff.mpr fun r hr hp =>
            hnd.1 (of_decide_eq_true hp ▸ List.mem_map.mpr ⟨r, hr, rfl⟩)
        rw [this]
      · have hx : ¬ x.tag = e.tag := fun hxe =>
          hnd.1 (hxe ▸ List.mem_map.mpr ⟨e, hexs, rfl⟩)
        rw [List.filter_cons_of_neg (by simp [hx])]
        exact filter_tag_self xs hnd.2 e hexs

theorem filter_tag_nil (l : List SRow) (t : String)
    (h : t ∉ l.map SRow.tag) :
    l.filter (fun r => decide (r.tag = t)) = [] :=
  List.filter_eq_nil_iff.mpr fun r hr hp =>
    h (of_decide_eq_true hp ▸ List.mem_map.mpr ⟨r, hr, rfl⟩)

theorem find?_tag_nil (l : List SRow) (t : String)
    (h : t ∉ l.map SRow.tag) :
    l.find? (fun r => decide (r.tag = t)) = none :=
  List.find?_eq_none.mpr fun r hr hp =>
    h (of_decide_eq_true hp ▸ List.mem_map.mpr ⟨r, hr, rfl⟩)

/-- C4: comparing a summary against itself — tags pairwise distinct and
both statistics present in every row — yields the empty diff. -/
theorem compare_summaries_self_empty (S : List SRow)
    (hnd : (S.map SRow.tag).Nodup)
    (hsome : ∀ r ∈ S, r.nonNull.isSome ∧ r.uniq.isSome) :
    compare_summaries S S = [] := by
  rw [compare_summaries]
  have hfil : (mergeRows S S).filter (fun m =>
      neqOpt m.nonNullOld m.nonNullNew || neqOpt m.uniqOld m.uniqNew) = [] := by
    rw [List.filter_eq_nil_iff]
    intro m hm
    rw [mergeRows, List.mem_append] at hm
    rcases hm with hleft | hright
    · obtain ⟨e, he, hme⟩ := List.mem_flatMap.mp hleft
      rw [filter_tag_self S hnd e he, if_neg (by simp), List.map_cons,
        List.map_nil, List.mem_singleton] at hme
      subst hme
      obtain ⟨h1, h2⟩ := hsome e he
      obtain ⟨n, hn⟩ := Option.isSome_iff_exists.mp h1
      obtain ⟨u, hu⟩ := Option.isSome_iff_exists.mp h2
      simp [neqOpt, hn, hu]
    · obtain ⟨n, hn, rfl⟩ := List.mem_map.mp hright
      obtain ⟨hnS, hnot⟩ := List.mem_filter.mp hn
      exact absurd (List.mem_map.mpr ⟨n, hnS, rfl⟩) (by simpa using hnot)
  rw [hfil]
  rfl

theorem compare_summaries_self_empty_witness :
    compare_summaries [⟨"x", some 5, some 3⟩, ⟨"y", some 2, some 2⟩]
      [⟨"x", some 5, some 3⟩, ⟨"y", some 2, some 2⟩] = [] :=
  compare_summaries_self_empty
    [⟨"x", some 5, some 3⟩, ⟨"y", some 2, some 2⟩] (by decide) (by decide)

theorem mem_mergeRows_iff (existing news : List SRow)
    (he : (existing.map SRow.tag).Nodup) (hn : (news.map SRow.tag).Nodup)
    (m : MRow) :
    m ∈ mergeRows existing news ↔
      ((m.tag ∈ existing.map SRow.tag ∨ m.tag ∈ news.map SRow.tag)
        ∧ m = specJoinRow existing news m.tag) := by
  constructor
  · intro hm
    rw [mergeRows, List.mem_append] at hm
    rcases hm with hleft | hright
    · obtain ⟨e, heM, hme⟩ := List.mem_flatMap.mp hleft
      have hfe : existing.find? (fun r => decide (r.tag = e.tag)) = some e :=
        find?_tag_self existing he e heM
      by_cases htag : e.tag ∈ news.map SRow.tag
      · obtain ⟨n, hnN, hnt⟩ := List.mem_map.mp htag
        have hfil : (news.filter fun r => decide (r.tag = e.tag)) = [n] := by
          rw [← hnt]; exact filter_tag_self news hn n hnN
        have hfn : news.find? (fun r => decide (r.tag = e.tag)) = some n := by
          rw [← hnt]; exact find?_tag_self news hn n hnN
        rw [hfil, if_neg (by simp), List.map_cons, List.map_nil,
          List.mem_singleton] at hme
        subst hme
        refine ⟨Or.inl (List.mem_map.mpr ⟨e, heM, rfl⟩), ?_⟩
        rw [specJoinRow]
        simp [hfe, hfn]
      · have hfn := find?_tag_nil news e.tag htag
        rw [filter_tag_nil news e.tag htag, if_pos rfl,
          List.mem_singleton] at hme
        subst hme
        refine ⟨Or.inl (List.mem_map.mpr ⟨e, heM, rfl⟩), ?_⟩
        rw [specJoinRow]
        simp [hfe, hfn]
    · obtain ⟨n, hnf, rfl⟩ := List.mem_map.mp hright
      obtain ⟨hnN, hdec⟩ := List.mem_filter.mp hnf
      have hnot : n.tag ∉ existing.map SRow.tag := of_decide_eq_true hdec
      have hfe := find?_tag_nil existing n.tag hnot
      have hfn : news.find? (fun r => decide (r.tag = n.tag)) = some n :=
        find?_tag_self news hn n hnN
      refine ⟨Or.inr (List.mem_map.mpr ⟨n, hnN, rfl⟩), ?_⟩
      rw [specJoinRow]
      simp [hfe, hfn]
  · rintro ⟨hunion, hspec⟩
    rw [mergeRows, List.mem_append]
    by_cases hex : m.tag ∈ existing.map SRow.tag
    · obtain ⟨e, heM, het⟩ := List.mem_map.mp hex
      left
      refine List.mem_flatMap.mpr ⟨e, heM, ?_⟩
      have hfe : existing.find? (fun r => decide (r.tag = m.tag)) = some e := by
        rw [← het]; exact find?_tag_self existing he e heM
      by_cases htag : m.tag ∈ news.map SRow.tag
      · obtain ⟨n, hnN, hnt⟩ := List.mem_map.mp htag
        have hfil : (news.filter fun r => decide (r.tag = e.tag)) = [n] := by
          rw [het, ← hnt]; exact filter_tag_self news hn n hnN
        have hfn : news.find? (fun r => decide (r.tag = m.tag)) = some n := by
          rw [← hnt]; exact find?_tag_self news hn n hnN
        rw [hfil, if_neg (by simp), List.map_cons, List.map_nil,
          List.mem_singleton, hspec, specJoinRow]
        simp [hfe, hfn, het]
      · have hfil : (news.filter fun r => decide (r.tag = e.tag)) = [] := by
          rw [het]; exact filter_tag_nil news m.tag htag
        have hfn := find?_tag_nil news m.tag htag
        rw [hfil, if_pos rfl, List.mem_singleton, hspec, specJoinRow]
        simp [hfe, hfn, het]
    · have hnew : m.tag ∈ news.map SRow.tag := hunion.resolve_left hex
      obtain ⟨n, hnN, hnt⟩ := List.mem_map.mp hnew
      right
      have hfe := find?_tag_nil existing m.tag hex
      have hfn : news.find? (fun r => decide (r.tag = m.tag)) = some n := by
        rw [← hnt]; exact find?_tag_self news hn n hnN
      refine List.mem_map.mpr ⟨n, List.mem_filter.mpr ⟨hnN, ?_⟩, ?_⟩
      · exact decide_eq_true (hnt ▸ hex)
      · rw [hspec, specJoinRow]
        simp [hfe, hfn, hnt]

theorem specJoinRow_some_side (existing news : List SRow)
    (he : (existing.map SRow.tag).Nodup) (hn : (news.map SRow.tag).Nodup)
    (hes : ∀ r ∈ existing, r.nonNull.isSome ∧ r.uniq.isSome)
    (hns : ∀ r ∈ news, r.nonNull.isSome ∧ r.uniq.isSome)
    (t : String)
    (hu : t ∈ existing.map SRow.tag ∨ t ∈ news.map SRow.tag) :
    ((specJoinRow existing news t).nonNullOld.isSome
      ∨ (specJoinRow existing news t).nonNullNew.isSome)
    ∧ ((specJoinRow existing news t).uniqOld.isSome
      ∨ (specJoinRow existing news t).uniqNew.isSome) := by
  rcases hu with hex | hnw
  · obtain ⟨e, heM, het⟩ := List.mem_map.mp hex
    have hfe : existing.find? (fun r => decide (r.tag = t)) = some e := by
      rw [← het]; exact find?_tag_self existing he e heM
    rw [specJoinRow]
    exact ⟨Or.inl (by simp [hfe, (hes e heM).1]),
      Or.inl (by simp [hfe, (hes e heM).2])⟩
  · obtain ⟨n, hnN, hnt⟩ := List.mem_map.mp hnw
    have hfn : news.find? (fun r => decide (r.tag = t)) = some n := by
      rw [← hnt]; exact find?_tag_self news hn n hnN
    rw [specJoinRow]
    exact ⟨Or.inr (by simp [hfn, (hns n hnN).1]),
      Or.inr (by simp [hfn, (hns n hnN).2])⟩

theorem neqOpt_iff_ne {a b : Option Int} (h : a.isSome ∨ b.isSome) :
    neqOpt a b = true ↔ a ≠ b := by
  cases a with
  | none =>
      cases b with
      | none => simp at h
      | some y => simp [neqOpt]
  | some x =>
      cases b with
      | none => simp [neqOpt]
      | some y => simp [neqOpt]

/-- C6: for summaries with pairwise-distinct tags per side (their statistics
present, as a column summary's derived integer statistics are),
`compare_summaries` is sorted ascending by tag and contains exactly the
outer-join rows whose `NonNullCount` or `UniqueValues` sides compare unequal
— a tag present on only one side always differs, the absent side's
statistics being null.  (`reset_index(drop=True)` is the identity on the
row sequence in the list model.) -/
theorem compare_summaries_outer_join_diff (news existing : List SRow)
    (hn : (news.map SRow.tag).Nodup) (he : (existing.map SRow.tag).Nodup)
    (hns : ∀ r ∈ news, r.nonNull.isSome ∧ r.uniq.isSome)
    (hes : ∀ r ∈ existing, r.nonNull.isSome ∧ r.uniq.isSome) :
    List.Sorted mtagLe (compare_summaries news existing)
    ∧ ∀ m : MRow, m ∈ compare_summaries news existing ↔
        ((m.tag ∈ existing.map SRow.tag ∨ m.tag ∈ news.map SRow.tag)
          ∧ m = specJoinRow existing news m.tag
          ∧ (m.nonNullOld ≠ m.nonNullNew ∨ m.uniqOld ≠ m.uniqNew)) := by
  constructor
  · exact List.sorted_insertionSort mtagLe _
  · intro m
    rw [compare_summaries, List.mem_insertionSort, List.mem_filter]
    constructor
    · rintro ⟨hmem, hp⟩
      obtain ⟨hu, hspec⟩ := (mem_mergeRows_iff existing news he hn m).mp hmem
      have hsides := specJoinRow_some_side existing news he hn hes hns
        m.tag hu
      rw [← hspec] at hsides
      refine ⟨hu, hspec, ?_⟩
      rw [Bool.or_eq_true] at hp
      rcases hp with h1 | h2
      · exact Or.inl ((neqOpt_iff_ne hsides.1).mp h1)
      · exact Or.inr ((neqOpt_iff_ne hsides.2).mp h2)
    · rintro ⟨hu, hspec, hdiff⟩
      have hsides := specJoinRow_some_side existing news he hn hes hns
        m.tag hu
      rw [← hspec] at hsides
      refine ⟨(mem_mergeRows_iff existing news he hn m).mpr ⟨hu, hspec⟩, ?_⟩
      rw [Bool.or_eq_true]
      rcases hdiff with h1 | h2
      · exact Or.inl ((neqOpt_iff_ne hsides.1).mpr h1)
      · exact Or.inr ((neqOpt_iff_ne hsides.2).mpr h2)

theorem compare_summaries_outer_join_diff_witness :
    (⟨"x", some 5, some 4, some 5, some 3⟩ : MRow) ∈
      compare_summaries [⟨"x", some 5, some 3⟩] [⟨"x", some 5, some 4⟩] ↔
      (((⟨"x", some 5, some 4, some 5, some 3⟩ : MRow).tag ∈
          ([⟨"x", some 5, some 4⟩] : List SRow).map SRow.tag
        ∨ (⟨"x", some 5, some 4, some 5, some 3⟩ : MRow).tag ∈
          ([⟨"x", some 5, some 3⟩] : List SRow).map SRow.tag)
      ∧ (⟨"x", some 5, some 4, some 5, some 3⟩ : MRow) =
          specJoinRow [⟨"x", some 5, some 4⟩] [⟨"x", some 5, some 3⟩]
            (⟨"x", some 5, some 4, some 5, some 3⟩ : MRow).tag
      ∧ ((⟨"x", some 5, some 4, some 5, some 3⟩ : MRow).nonNullOld ≠
          (⟨"x", some 5, some 4, some 5, some 3⟩ : MRow).nonNullNew
        ∨ (⟨"x", some 5, some 4, some 5, some 3⟩ : MRow).uniqOld ≠
          (⟨"x", some 5, some 4, some 5, some 3⟩ : MRow).uniqNew)) :=
  (compare_summaries_outer_join_diff [⟨"x", some 5, some 3⟩]
    [⟨"x", some 5, some 4⟩] (by decide) (by decide) (by decide)
    (by decide)).2 ⟨"x", some 5, some 4, some 5, some 3⟩
